import Mathlib

/-!
# Hybrid tagged / stride prefetcher

A shallow embedding of `Project_Source_Files/prefetcher.C` and `prefetcher.h`.

* The three file-static tables (`tags`, `rpt_check`, `rpt_table`) and the private members of
  the `Prefetcher` object are gathered in one `State` record that every operation threads.
* A C array is a function from index to element; a write is `store`.
* A `char` is kept as its 8-bit pattern (a natural number below 256).  The operators `|`, `&`
  and `~` act bit by bit, so integer promotion followed by truncation back to `char` is the
  same operation on the low eight bits.  The single place where the signedness of plain `char`
  is observable is the comparison `result > 0` in `checkBit`; signedness is implementation
  defined, so the embedding takes it as the parameter `signedChar` (`true` on the x86 and
  x86-64 ABIs used by GCC and Clang, `false` on the ARM ABIs).
* `u_int32_t` values are natural numbers reduced modulo `2^32`; `int` values are integers.
-/

namespace HybridPrefetcher

/-! ## Constants of `prefetcher.h` -/

def STATE_SIZE : Nat := 2048
def BITS_PER_CHAR : Nat := 8
def L2_BLOCK_SIZE : Nat := 32
def NUM_REQS_PER_MISS : Nat := 3
def NUM_RPT_ENTRIES : Nat := 128
def WORTHWHILE_RPT : Int := 128

/-- The value of `sizeof(char)`. -/
def sizeof_char : Nat := 1

/-- The declared length of `rpt_check`, written `NUM_RPT_ENTRIES/8 + 1` at every use. -/
def RPT_CHECK_SIZE : Nat := NUM_RPT_ENTRIES / 8 + 1

/-! ## Machine arithmetic -/

/-- Conversion of an integer to `u_int32_t`. -/
def wrap32 (x : Int) : Nat := (x % 4294967296).toNat

/-- Conversion of a `u_int32_t` bit pattern to `int`. -/
def toInt32 (x : Nat) : Int :=
  if x % 4294967296 < 2147483648 then (x % 4294967296 : Nat) else ((x % 4294967296 : Nat) : Int) - 4294967296

/-- Truncation of an integer result to the 8 bits of a `char`. -/
def toChar (x : Nat) : Nat := x % 256

/-- The numeric value of a `char` with bit pattern `b`. -/
def charValue (signedChar : Bool) (b : Nat) : Int :=
  if signedChar && decide (128 ≤ b) then (b : Int) - 256 else (b : Int)

/-- Array write `a[i] = v`. -/
def store {α : Type} (a : Nat → α) (i : Nat) (v : α) : Nat → α :=
  fun j => if j = i then v else a j

/-! ## Data -/

/-- One row of the reference prediction table (`rpt_row_entry_t`). -/
structure rpt_row_entry_t where
  pc : Nat
  last_mem : Nat
  last_stride : Int
deriving DecidableEq, Repr

/-- Modelled from the spec: the `Request` record of `mem-sim.h`, which is not part of the
sources.  It carries the fields the prefetcher reads (`addr`, `pc`, `HitL1`) and the two
other fields the header lists as valid (`load`, `issuedAt`). -/
structure Request where
  addr : Nat
  pc : Nat
  load : Bool
  issuedAt : Nat
  HitL1 : Bool
deriving DecidableEq, Repr

/-- The private members of `Prefetcher` together with the three static tables. -/
structure State where
  _ready : Bool
  _nextReq : Request
  _req_left : Int
  tags : Nat → Nat
  rpt_check : Nat → Nat
  rpt_table : Nat → rpt_row_entry_t

/-! ## Bit-array helpers -/

/-- The `bit_index` computed by all three bit-array helpers. -/
def bitIndex (addr size : Nat) : Nat := addr % (size * sizeof_char)

/-- The `char_index` computed by all three bit-array helpers. -/
def charIndex (addr size : Nat) : Nat := bitIndex addr size / BITS_PER_CHAR

/-- The `rem_bits` computed by all three bit-array helpers. -/
def remBits (addr size : Nat) : Nat := bitIndex addr size - charIndex addr size * BITS_PER_CHAR

/-- The `selector` byte: `1 << rem_bits` truncated to a `char`. -/
def selectorOf (rem_bits : Nat) : Nat := toChar (1 <<< rem_bits)

def checkBit (signedChar : Bool) (addr : Nat) (bitArray : Nat → Nat) (size : Nat) : Bool :=
  let bit_index := addr % (size * sizeof_char)
  let char_index := bit_index / BITS_PER_CHAR
  let rem_bits := bit_index - char_index * BITS_PER_CHAR
  let selector := toChar (1 <<< rem_bits)
  let sect := bitArray char_index
  let result := toChar (sect &&& selector)
  if charValue signedChar result > 0 then true else false

def markBit (addr : Nat) (bitArray : Nat → Nat) (size : Nat) : Nat → Nat :=
  let bit_index := addr % (size * sizeof_char)
  let char_index := bit_index / BITS_PER_CHAR
  let rem_bits := bit_index - char_index * BITS_PER_CHAR
  let selector := toChar (1 <<< rem_bits)
  store bitArray char_index (toChar (bitArray char_index ||| selector))

def unmarkBit (addr : Nat) (bitArray : Nat → Nat) (size : Nat) : Nat → Nat :=
  let bit_index := addr % (size * sizeof_char)
  let char_index := bit_index / BITS_PER_CHAR
  let rem_bits := bit_index - char_index * BITS_PER_CHAR
  let selector := toChar (1 <<< rem_bits)
  store bitArray char_index (toChar (bitArray char_index &&& (255 - selector)))

/-! ## The prefetcher -/

/-- One iteration of the constructor's loop. -/
def ctorStep (st : State) (i : Nat) : State :=
  { st with
    rpt_table := store st.rpt_table i { pc := 0, last_mem := 0, last_stride := 0 }
    rpt_check := unmarkBit i st.rpt_check RPT_CHECK_SIZE }

/-- The constructor `Prefetcher::Prefetcher()`, run on whatever the object and the static
tables held before. -/
def Prefetcher (prior : State) : State :=
  (List.range NUM_RPT_ENTRIES).foldl ctorStep
    { prior with
      _ready := false
      tags := fun j => if j < STATE_SIZE then 0 else prior.tags j }

def hasRequest (st : State) : Bool := st._ready

def getRequest (st : State) : Request := st._nextReq

def completeRequest (signedChar : Bool) (st : State) : State :=
  if st._req_left = 0 then
    { st with _ready := false }
  else
    let rpt_row_num := st._nextReq.pc % NUM_RPT_ENTRIES
    let curr_row := st.rpt_table rpt_row_num
    let addr :=
      if curr_row.pc = st._nextReq.pc
          ∧ checkBit signedChar rpt_row_num st.rpt_check RPT_CHECK_SIZE = true then
        wrap32 ((st._nextReq.addr : Int) + curr_row.last_stride)
      else
        wrap32 ((st._nextReq.addr : Int) + (L2_BLOCK_SIZE : Int))
    { st with
      _req_left := st._req_left - 1
      _nextReq := { st._nextReq with addr := addr }
      tags := markBit addr st.tags STATE_SIZE }

/-- The first branch of `cpuRequest` (lines 133-148): a hit on a tagged block while no
request is staged. -/
def hitBranch (signedChar : Bool) (st : State) (req : Request) : State :=
  let rpt_row_num := req.pc % NUM_RPT_ENTRIES
  let curr_row := st.rpt_table rpt_row_num
  let addr :=
    if curr_row.pc = req.pc
        ∧ checkBit signedChar rpt_row_num st.rpt_check RPT_CHECK_SIZE = true then
      wrap32 ((req.addr : Int) + curr_row.last_stride)
    else
      wrap32 ((req.addr : Int) + (L2_BLOCK_SIZE : Int))
  { st with
    _nextReq := { st._nextReq with addr := addr }
    tags := markBit addr st.tags STATE_SIZE
    _ready := true
    _req_left := NUM_REQS_PER_MISS - 1 }

/-- The RPT processing of the second branch of `cpuRequest` (lines 151-176). -/
def rptProcess (st : State) (req : Request) : State :=
  let rpt_row_num := req.pc % NUM_RPT_ENTRIES
  let curr_row := st.rpt_table rpt_row_num
  if curr_row.pc = req.pc then
    let curr_stride := toInt32 (wrap32 ((req.addr : Int) - (curr_row.last_mem : Int)))
    if curr_stride = curr_row.last_stride ∧ curr_stride > WORTHWHILE_RPT then
      { st with
        rpt_check := markBit rpt_row_num st.rpt_check RPT_CHECK_SIZE
        _nextReq := { st._nextReq with addr := wrap32 ((req.addr : Int) + curr_stride) } }
    else
      { st with
        rpt_table := store st.rpt_table rpt_row_num { curr_row with last_stride := curr_stride }
        _nextReq := { st._nextReq with addr := wrap32 ((req.addr : Int) + (L2_BLOCK_SIZE : Int)) }
        rpt_check := unmarkBit rpt_row_num st.rpt_check RPT_CHECK_SIZE }
  else
    { st with
      _nextReq := { st._nextReq with addr := wrap32 ((req.addr : Int) + (L2_BLOCK_SIZE : Int)) }
      rpt_table := store st.rpt_table rpt_row_num { curr_row with last_stride := 0 }
      rpt_check := unmarkBit rpt_row_num st.rpt_check RPT_CHECK_SIZE }

/-- The second branch of `cpuRequest` (lines 150-181): a pure miss. -/
def missBranch (st : State) (req : Request) : State :=
  let rpt_row_num := req.pc % NUM_RPT_ENTRIES
  let st1 := rptProcess st req
  { st1 with
    rpt_table := store st1.rpt_table rpt_row_num
      { st1.rpt_table rpt_row_num with pc := req.pc, last_mem := req.addr }
    _ready := true
    _req_left := NUM_REQS_PER_MISS - 1 }

def cpuRequest (signedChar : Bool) (st : State) (req : Request) : State :=
  let st1 :=
    if req.HitL1 = true ∧ checkBit signedChar req.addr st.tags STATE_SIZE = true
        ∧ st._ready = false then
      hitBranch signedChar st req
    else if req.HitL1 = false then
      missBranch st req
    else
      st
  { st1 with tags := unmarkBit req.addr st1.tags STATE_SIZE }

/-- The object and tables as the program finds them at start-up: static storage is
zero-initialised; the members the constructor does not write are taken as zero. -/
def startState : State :=
  { _ready := false
    _nextReq := { addr := 0, pc := 0, load := false, issuedAt := 0, HitL1 := false }
    _req_left := 0
    tags := fun _ => 0
    rpt_check := fun _ => 0
    rpt_table := fun _ => { pc := 0, last_mem := 0, last_stride := 0 } }

/-- A demand miss by `pc` at `addr`. -/
def missEvent (pc addr : Nat) : Request :=
  { addr := addr, pc := pc, load := true, issuedAt := 0, HitL1 := false }

/-- An L1 hit by `pc` at `addr`. -/
def hitEvent (pc addr : Nat) : Request :=
  { addr := addr, pc := pc, load := true, issuedAt := 0, HitL1 := true }



/-- The engine constructed over `prior` and then sent two demand misses by `pc`, at `a` and
at `a + s` (modulo `2^32`). -/
def twoMisses (signedChar : Bool) (prior : State) (pc a s : Nat) : State :=
  cpuRequest signedChar
    (cpuRequest signedChar (Prefetcher prior) (missEvent pc a))
    (missEvent pc ((a + s) % 4294967296))

/-- The engine constructed over `prior` and then sent three demand misses by `pc`, at `a`,
`a + s` and `a + 2s` (modulo `2^32`). -/
def threeMisses (signedChar : Bool) (prior : State) (pc a s : Nat) : State :=
  cpuRequest signedChar (twoMisses signedChar prior pc a s)
    (missEvent pc ((a + 2 * s) % 4294967296))

/-- The start-up state with address 1032 tagged, as after a prefetch of 1032 was staged. -/
def taggedState : State :=
  { startState with tags := markBit 1032 startState.tags STATE_SIZE }

/-- Two memories that hold the same object members and the same contents in every cell of
the three arrays: `tags[0..2047]`, `rpt_check[0..16]` and `rpt_table[0..127]`.  What lies at
or beyond the end of an array is left free. -/
def inBoundsEq (s t : State) : Prop :=
  s._ready = t._ready ∧ s._nextReq = t._nextReq ∧ s._req_left = t._req_left
    ∧ (∀ k, k < STATE_SIZE → s.tags k = t.tags k)
    ∧ (∀ k, k < RPT_CHECK_SIZE → s.rpt_check k = t.rpt_check k)
    ∧ (∀ k, k < NUM_RPT_ENTRIES → s.rpt_table k = t.rpt_table k)

/-- The start-up state with other contents past the end of each of the three arrays. -/
def junkState : State :=
  { startState with
    tags := fun k => if k < STATE_SIZE then startState.tags k else 255
    rpt_check := fun k => if k < RPT_CHECK_SIZE then startState.rpt_check k else 255
    rpt_table := fun k =>
      if k < NUM_RPT_ENTRIES then startState.rpt_table k
      else { pc := k, last_mem := 4096, last_stride := 200 } }

/-! ## Bit-level lemmas -/

theorem remBits_eq (addr size : Nat) : remBits addr size = bitIndex addr size % 8 := by
  unfold remBits charIndex BITS_PER_CHAR
  omega

theorem remBits_lt (addr size : Nat) : remBits addr size < 8 := by
  rw [remBits_eq]; omega

theorem selector_eq {r : Nat} (hr : r < 8) : toChar (1 <<< r) = 2 ^ r := by
  unfold toChar
  rw [Nat.one_shiftLeft]
  apply Nat.mod_eq_of_lt
  calc 2 ^ r < 2 ^ 8 := Nat.pow_lt_pow_right (by decide) hr
    _ = 256 := by norm_num

theorem toChar_testBit (x j : Nat) : (toChar x).testBit j = (decide (j < 8) && x.testBit j) := by
  have : toChar x = x % 2 ^ 8 := rfl
  rw [this, Nat.testBit_mod_two_pow]

theorem result_eq (x : Nat) {r : Nat} (hr : r < 8) :
    toChar (x &&& toChar (1 <<< r)) = if x.testBit r then 2 ^ r else 0 := by
  rw [selector_eq hr, Nat.and_two_pow]
  have h2 : 2 ^ r < 256 := by
    calc 2 ^ r < 2 ^ 8 := Nat.pow_lt_pow_right (by decide) hr
      _ = 256 := by norm_num
  cases h : x.testBit r
  · simp [toChar]
  · simp [toChar, Nat.mod_eq_of_lt h2]

theorem checkBit_eq (signedChar : Bool) (addr : Nat) (bitArray : Nat → Nat) (size : Nat) :
    checkBit signedChar addr bitArray size =
      ((bitArray (charIndex addr size)).testBit (remBits addr size)
        && !(signedChar && decide (remBits addr size = 7))) := by
  have hr := remBits_lt addr size
  have hres := result_eq (bitArray (charIndex addr size)) hr
  have hdef : checkBit signedChar addr bitArray size =
      if charValue signedChar
        (toChar (bitArray (charIndex addr size) &&& toChar (1 <<< remBits addr size))) > 0
      then true else false := rfl
  rw [hdef, hres]
  generalize remBits addr size = r at hr ⊢
  cases (bitArray (charIndex addr size)).testBit r <;> cases signedChar <;>
    interval_cases r <;> simp [charValue]

theorem markBit_apply (addr : Nat) (bitArray : Nat → Nat) (size j : Nat) :
    markBit addr bitArray size j =
      if j = charIndex addr size then
        toChar (bitArray (charIndex addr size) ||| toChar (1 <<< remBits addr size))
      else bitArray j := rfl

theorem unmarkBit_apply (addr : Nat) (bitArray : Nat → Nat) (size j : Nat) :
    unmarkBit addr bitArray size j =
      if j = charIndex addr size then
        toChar (bitArray (charIndex addr size) &&& (255 - toChar (1 <<< remBits addr size)))
      else bitArray j := rfl

theorem marked_testBit (x j : Nat) {r : Nat} (hr : r < 8) :
    (toChar (x ||| toChar (1 <<< r))).testBit j
      = (decide (j < 8) && (x.testBit j || decide (r = j))) := by
  rw [toChar_testBit, selector_eq hr, Nat.testBit_or, Nat.testBit_two_pow]

theorem unmarked_testBit (x j : Nat) {r : Nat} (hr : r < 8) :
    (toChar (x &&& (255 - toChar (1 <<< r)))).testBit j
      = (decide (j < 8) && (x.testBit j && !decide (r = j))) := by
  have h2 : 2 ^ r < 2 ^ 8 := Nat.pow_lt_pow_right (by decide) hr
  have h255 : 255 - 2 ^ r = 2 ^ 8 - (2 ^ r + 1) := by omega
  rw [toChar_testBit, selector_eq hr, Nat.testBit_and, h255,
    Nat.testBit_two_pow_sub_succ h2, Nat.testBit_two_pow]
  cases x.testBit j <;> simp

theorem checkBit_unmarkBit (signedChar : Bool) (addr : Nat) (bitArray : Nat → Nat) (size : Nat) :
    checkBit signedChar addr (unmarkBit addr bitArray size) size = false := by
  rw [checkBit_eq, unmarkBit_apply, if_pos rfl, unmarked_testBit _ _ (remBits_lt addr size)]
  simp

theorem checkBit_markBit_unsigned (addr : Nat) (bitArray : Nat → Nat) (size : Nat) :
    checkBit false addr (markBit addr bitArray size) size = true := by
  rw [checkBit_eq, markBit_apply, if_pos rfl, marked_testBit _ _ (remBits_lt addr size)]
  simp [remBits_lt addr size]

theorem checkBit_markBit (signedChar : Bool) (addr : Nat) (bitArray : Nat → Nat) (size : Nat) :
    checkBit signedChar addr (markBit addr bitArray size) size
      = !(signedChar && decide (remBits addr size = 7)) := by
  rw [checkBit_eq, markBit_apply, if_pos rfl, marked_testBit _ _ (remBits_lt addr size)]
  simp [remBits_lt addr size]


/-! ## The constructor -/

theorem foldl_ctorStep_ready (l : List Nat) (st : State) :
    (l.foldl ctorStep st)._ready = st._ready := by
  induction l generalizing st with
  | nil => rfl
  | cons i l ih => rw [List.foldl_cons, ih]; rfl

theorem foldl_ctorStep_nextReq (l : List Nat) (st : State) :
    (l.foldl ctorStep st)._nextReq = st._nextReq := by
  induction l generalizing st with
  | nil => rfl
  | cons i l ih => rw [List.foldl_cons, ih]; rfl

theorem foldl_ctorStep_tags (l : List Nat) (st : State) :
    (l.foldl ctorStep st).tags = st.tags := by
  induction l generalizing st with
  | nil => rfl
  | cons i l ih => rw [List.foldl_cons, ih]; rfl

theorem foldl_ctorStep_rpt_table (l : List Nat) (st : State) (j : Nat) :
    (l.foldl ctorStep st).rpt_table j =
      if j ∈ l then { pc := 0, last_mem := 0, last_stride := 0 } else st.rpt_table j := by
  induction l generalizing st with
  | nil => simp
  | cons i l ih =>
    rw [List.foldl_cons, ih]
    by_cases hjl : j ∈ l
    · simp [hjl]
    · by_cases hji : j = i
      · simp [hji, ctorStep, store]
      · simp [hjl, hji, ctorStep, store]

theorem Prefetcher_ready (prior : State) : (Prefetcher prior)._ready = false := by
  unfold Prefetcher
  rw [foldl_ctorStep_ready]

theorem Prefetcher_nextReq (prior : State) : (Prefetcher prior)._nextReq = prior._nextReq := by
  unfold Prefetcher
  rw [foldl_ctorStep_nextReq]

theorem Prefetcher_rpt_table (prior : State) {j : Nat} (hj : j < NUM_RPT_ENTRIES) :
    (Prefetcher prior).rpt_table j = { pc := 0, last_mem := 0, last_stride := 0 } := by
  unfold Prefetcher
  rw [foldl_ctorStep_rpt_table, if_pos (List.mem_range.mpr hj)]

theorem Prefetcher_tags (prior : State) {j : Nat} (hj : j < STATE_SIZE) :
    (Prefetcher prior).tags j = 0 := by
  unfold Prefetcher
  rw [foldl_ctorStep_tags]
  simp [hj]

/-! ## Machine arithmetic lemmas -/

theorem wrap32_natCast (n : Nat) : wrap32 (n : Int) = n % 4294967296 := by
  unfold wrap32
  omega

theorem wrap32_add_natCast (a b : Nat) : wrap32 ((a : Int) + (b : Int)) = (a + b) % 4294967296 := by
  unfold wrap32
  omega

theorem stride_of_step (a : Nat) {s : Nat} (hs : s < 2147483648) :
    toInt32 (wrap32 ((((a + s) % 4294967296 : Nat) : Int) - (a : Int))) = (s : Int) := by
  unfold toInt32 wrap32
  split <;> omega

theorem stride_from_zero (a : Nat) :
    toInt32 (wrap32 ((a : Int) - ((0 : Nat) : Int))) = toInt32 a := by
  unfold toInt32 wrap32
  split <;> split <;> omega

/-! ## One demand miss -/

theorem cpuRequest_miss (signedChar : Bool) (st : State) (req : Request)
    (h : req.HitL1 = false) :
    cpuRequest signedChar st req =
      { missBranch st req with tags := unmarkBit req.addr (missBranch st req).tags STATE_SIZE } := by
  simp [cpuRequest, h]

theorem rptProcess_tags (st : State) (req : Request) : (rptProcess st req).tags = st.tags := by
  unfold rptProcess
  simp only []
  split
  · split <;> rfl
  · rfl

theorem rptProcess_nextReq_pc (st : State) (req : Request) :
    (rptProcess st req)._nextReq.pc = st._nextReq.pc := by
  unfold rptProcess
  simp only []
  split
  · split <;> rfl
  · rfl

theorem cpuRequest_miss_ready (signedChar : Bool) (st : State) (req : Request)
    (h : req.HitL1 = false) :
    (cpuRequest signedChar st req)._ready = true
      ∧ (cpuRequest signedChar st req)._req_left = 2 := by
  rw [cpuRequest_miss signedChar st req h]
  exact ⟨rfl, rfl⟩

theorem cpuRequest_miss_tags (signedChar : Bool) (st : State) (req : Request)
    (h : req.HitL1 = false) :
    (cpuRequest signedChar st req).tags = unmarkBit req.addr st.tags STATE_SIZE := by
  rw [cpuRequest_miss signedChar st req h]
  show unmarkBit req.addr (rptProcess st req).tags STATE_SIZE = _
  rw [rptProcess_tags]

theorem cpuRequest_miss_foreign (signedChar : Bool) (st : State) (req : Request)
    (h : req.HitL1 = false) (hpc : (st.rpt_table (req.pc % NUM_RPT_ENTRIES)).pc ≠ req.pc) :
    (cpuRequest signedChar st req).rpt_table (req.pc % NUM_RPT_ENTRIES)
        = { pc := req.pc, last_mem := req.addr, last_stride := 0 }
      ∧ (cpuRequest signedChar st req)._nextReq.addr = wrap32 (req.addr + L2_BLOCK_SIZE)
      ∧ (cpuRequest signedChar st req).rpt_check
        = unmarkBit (req.pc % NUM_RPT_ENTRIES) st.rpt_check RPT_CHECK_SIZE := by
  rw [cpuRequest_miss signedChar st req h]
  simp only [missBranch, rptProcess, if_neg hpc]
  simp [store]

theorem cpuRequest_miss_unstable (signedChar : Bool) (st : State) (req : Request)
    (h : req.HitL1 = false) (hpc : (st.rpt_table (req.pc % NUM_RPT_ENTRIES)).pc = req.pc)
    (hs : ¬ (toInt32 (wrap32 (req.addr - (st.rpt_table (req.pc % NUM_RPT_ENTRIES)).last_mem))
          = (st.rpt_table (req.pc % NUM_RPT_ENTRIES)).last_stride
        ∧ toInt32 (wrap32 (req.addr - (st.rpt_table (req.pc % NUM_RPT_ENTRIES)).last_mem))
          > WORTHWHILE_RPT)) :
    (cpuRequest signedChar st req).rpt_table (req.pc % NUM_RPT_ENTRIES)
        = { pc := req.pc, last_mem := req.addr
            last_stride :=
              toInt32 (wrap32 (req.addr - (st.rpt_table (req.pc % NUM_RPT_ENTRIES)).last_mem)) }
      ∧ (cpuRequest signedChar st req)._nextReq.addr = wrap32 (req.addr + L2_BLOCK_SIZE)
      ∧ (cpuRequest signedChar st req).rpt_check
        = unmarkBit (req.pc % NUM_RPT_ENTRIES) st.rpt_check RPT_CHECK_SIZE := by
  rw [cpuRequest_miss signedChar st req h]
  simp only [missBranch, rptProcess, if_pos hpc, if_neg hs]
  simp [store]

theorem cpuRequest_miss_confident (signedChar : Bool) (st : State) (req : Request)
    (h : req.HitL1 = false) (hpc : (st.rpt_table (req.pc % NUM_RPT_ENTRIES)).pc = req.pc)
    (hs : toInt32 (wrap32 (req.addr - (st.rpt_table (req.pc % NUM_RPT_ENTRIES)).last_mem))
          = (st.rpt_table (req.pc % NUM_RPT_ENTRIES)).last_stride
        ∧ toInt32 (wrap32 (req.addr - (st.rpt_table (req.pc % NUM_RPT_ENTRIES)).last_mem))
          > WORTHWHILE_RPT) :
    (cpuRequest signedChar st req).rpt_table (req.pc % NUM_RPT_ENTRIES)
        = { pc := req.pc, last_mem := req.addr
            last_stride := (st.rpt_table (req.pc % NUM_RPT_ENTRIES)).last_stride }
      ∧ (cpuRequest signedChar st req)._nextReq.addr
        = wrap32 (req.addr + (st.rpt_table (req.pc % NUM_RPT_ENTRIES)).last_stride)
      ∧ (cpuRequest signedChar st req).rpt_check
        = markBit (req.pc % NUM_RPT_ENTRIES) st.rpt_check RPT_CHECK_SIZE := by
  rw [cpuRequest_miss signedChar st req h]
  simp only [missBranch, rptProcess, if_pos hpc, if_pos hs]
  simp [store, hs.1]

theorem cpuRequest_nextReq_pc (signedChar : Bool) (st : State) (req : Request) :
    (cpuRequest signedChar st req)._nextReq.pc = st._nextReq.pc := by
  unfold cpuRequest
  simp only []
  split
  · rfl
  · split
    · exact rptProcess_nextReq_pc st req
    · rfl

theorem cpuRequest_miss_row_owner (signedChar : Bool) (st : State) (req : Request)
    (h : req.HitL1 = false) :
    ((cpuRequest signedChar st req).rpt_table (req.pc % NUM_RPT_ENTRIES)).pc = req.pc
      ∧ ((cpuRequest signedChar st req).rpt_table (req.pc % NUM_RPT_ENTRIES)).last_mem
        = req.addr := by
  by_cases hpc : (st.rpt_table (req.pc % NUM_RPT_ENTRIES)).pc = req.pc
  · by_cases hs : toInt32 (wrap32 (req.addr - (st.rpt_table (req.pc % NUM_RPT_ENTRIES)).last_mem))
          = (st.rpt_table (req.pc % NUM_RPT_ENTRIES)).last_stride
        ∧ toInt32 (wrap32 (req.addr - (st.rpt_table (req.pc % NUM_RPT_ENTRIES)).last_mem))
          > WORTHWHILE_RPT
    · rw [(cpuRequest_miss_confident signedChar st req h hpc hs).1]
      exact ⟨rfl, rfl⟩
    · rw [(cpuRequest_miss_unstable signedChar st req h hpc hs).1]
      exact ⟨rfl, rfl⟩
  · rw [(cpuRequest_miss_foreign signedChar st req h hpc).1]
    exact ⟨rfl, rfl⟩

theorem cpuRequest_miss_row_stride (signedChar : Bool) (st : State) (req : Request)
    (h : req.HitL1 = false) (hpc : (st.rpt_table (req.pc % NUM_RPT_ENTRIES)).pc = req.pc) :
    ((cpuRequest signedChar st req).rpt_table (req.pc % NUM_RPT_ENTRIES)).last_stride
      = toInt32 (wrap32 (req.addr - (st.rpt_table (req.pc % NUM_RPT_ENTRIES)).last_mem)) := by
  by_cases hs : toInt32 (wrap32 (req.addr - (st.rpt_table (req.pc % NUM_RPT_ENTRIES)).last_mem))
        = (st.rpt_table (req.pc % NUM_RPT_ENTRIES)).last_stride
      ∧ toInt32 (wrap32 (req.addr - (st.rpt_table (req.pc % NUM_RPT_ENTRIES)).last_mem))
        > WORTHWHILE_RPT
  · rw [(cpuRequest_miss_confident signedChar st req h hpc hs).1]
    exact hs.1.symm
  · rw [(cpuRequest_miss_unstable signedChar st req h hpc hs).1]

/-! ## Three misses with a repeated stride -/

theorem stride_of_second_step (a : Nat) {s : Nat} (hs : s < 2147483648) :
    toInt32 (wrap32 ((((a + 2 * s) % 4294967296 : Nat) : Int)
      - (((a + s) % 4294967296 : Nat) : Int))) = (s : Int) := by
  unfold toInt32 wrap32
  split <;> omega

theorem twoMisses_row (signedChar : Bool) (prior : State) (pc a : Nat) {s : Nat}
    (hs : s < 2147483648) :
    (twoMisses signedChar prior pc a s).rpt_table (pc % NUM_RPT_ENTRIES)
      = { pc := pc, last_mem := (a + s) % 4294967296, last_stride := (s : Int) } := by
  have h1 := cpuRequest_miss_row_owner signedChar (Prefetcher prior) (missEvent pc a) rfl
  have h2 := cpuRequest_miss_row_owner signedChar
    (cpuRequest signedChar (Prefetcher prior) (missEvent pc a))
    (missEvent pc ((a + s) % 4294967296)) rfl
  have h3 := cpuRequest_miss_row_stride signedChar
    (cpuRequest signedChar (Prefetcher prior) (missEvent pc a))
    (missEvent pc ((a + s) % 4294967296)) rfl h1.1
  have hmem : ((cpuRequest signedChar (Prefetcher prior) (missEvent pc a)).rpt_table
      (pc % NUM_RPT_ENTRIES)).last_mem = a := h1.2
  have h3b : ((twoMisses signedChar prior pc a s).rpt_table (pc % NUM_RPT_ENTRIES)).last_stride
      = toInt32 (wrap32 ((((a + s) % 4294967296 : Nat) : Int)
          - (((cpuRequest signedChar (Prefetcher prior) (missEvent pc a)).rpt_table
              (pc % NUM_RPT_ENTRIES)).last_mem : Int))) := h3
  rw [hmem, stride_of_step a hs] at h3b
  have hpc2 : ((twoMisses signedChar prior pc a s).rpt_table (pc % NUM_RPT_ENTRIES)).pc = pc :=
    h2.1
  have hmem2 : ((twoMisses signedChar prior pc a s).rpt_table (pc % NUM_RPT_ENTRIES)).last_mem
      = (a + s) % 4294967296 := h2.2
  cases hrow : (twoMisses signedChar prior pc a s).rpt_table (pc % NUM_RPT_ENTRIES) with
  | mk p m l =>
    rw [hrow] at h3b hpc2 hmem2
    simp only at h3b hpc2 hmem2
    rw [h3b, hpc2, hmem2]

theorem threeMisses_confident (signedChar : Bool) (prior : State) (pc a : Nat) {s : Nat}
    (hlo : 128 < s) (hhi : s < 2147483648) :
    (threeMisses signedChar prior pc a s)._nextReq.addr = (a + 3 * s) % 4294967296
      ∧ (threeMisses signedChar prior pc a s).rpt_check
        = markBit (pc % NUM_RPT_ENTRIES) (twoMisses signedChar prior pc a s).rpt_check
            RPT_CHECK_SIZE := by
  have hrow := twoMisses_row signedChar prior pc a hhi
  have hpc : ((twoMisses signedChar prior pc a s).rpt_table
      ((missEvent pc ((a + 2 * s) % 4294967296)).pc % NUM_RPT_ENTRIES)).pc
      = (missEvent pc ((a + 2 * s) % 4294967296)).pc := by
    show ((twoMisses signedChar prior pc a s).rpt_table (pc % NUM_RPT_ENTRIES)).pc = pc
    rw [hrow]
  have hst : toInt32 (wrap32 (((missEvent pc ((a + 2 * s) % 4294967296)).addr : Int)
        - (((twoMisses signedChar prior pc a s).rpt_table
            ((missEvent pc ((a + 2 * s) % 4294967296)).pc % NUM_RPT_ENTRIES)).last_mem : Int)))
        = ((twoMisses signedChar prior pc a s).rpt_table
            ((missEvent pc ((a + 2 * s) % 4294967296)).pc % NUM_RPT_ENTRIES)).last_stride
      ∧ toInt32 (wrap32 (((missEvent pc ((a + 2 * s) % 4294967296)).addr : Int)
        - (((twoMisses signedChar prior pc a s).rpt_table
            ((missEvent pc ((a + 2 * s) % 4294967296)).pc % NUM_RPT_ENTRIES)).last_mem : Int)))
        > WORTHWHILE_RPT := by
    show toInt32 (wrap32 ((((a + 2 * s) % 4294967296 : Nat) : Int)
        - (((twoMisses signedChar prior pc a s).rpt_table (pc % NUM_RPT_ENTRIES)).last_mem : Int)))
        = ((twoMisses signedChar prior pc a s).rpt_table (pc % NUM_RPT_ENTRIES)).last_stride
      ∧ toInt32 (wrap32 ((((a + 2 * s) % 4294967296 : Nat) : Int)
        - (((twoMisses signedChar prior pc a s).rpt_table (pc % NUM_RPT_ENTRIES)).last_mem : Int)))
        > WORTHWHILE_RPT
    rw [hrow]
    simp only
    rw [stride_of_second_step a hhi]
    refine ⟨rfl, ?_⟩
    unfold WORTHWHILE_RPT
    omega
  have hc := cpuRequest_miss_confident signedChar (twoMisses signedChar prior pc a s)
    (missEvent pc ((a + 2 * s) % 4294967296)) rfl hpc hst
  refine ⟨?_, hc.2.2⟩
  have haddr : (threeMisses signedChar prior pc a s)._nextReq.addr
      = wrap32 ((((a + 2 * s) % 4294967296 : Nat) : Int)
          + ((twoMisses signedChar prior pc a s).rpt_table (pc % NUM_RPT_ENTRIES)).last_stride) :=
    hc.2.1
  rw [haddr, hrow]
  simp only
  unfold wrap32
  omega

/-! ## Claims -/

/-- C1. End-to-end stride prediction: on an engine constructed over any prior memory, for
every program counter `pc`, address `a` and stride `s` with `128 < s < 2^31`, after demand
misses by `pc` at `a`, `a + s`, `a + 2s` (modulo `2^32`) `hasRequest` is true and the staged
address is `a + 3s` modulo `2^32`, whatever the signedness of `char`. -/
theorem C1_end_to_end_stride (signedChar : Bool) (prior : State) (pc a s : Nat)
    (hlo : 128 < s) (hhi : s < 2147483648) :
    hasRequest (threeMisses signedChar prior pc a s) = true
      ∧ (getRequest (threeMisses signedChar prior pc a s)).addr = (a + 3 * s) % 4294967296 :=
  ⟨(cpuRequest_miss_ready signedChar (twoMisses signedChar prior pc a s)
      (missEvent pc ((a + 2 * s) % 4294967296)) rfl).1,
    (threeMisses_confident signedChar prior pc a hlo hhi).1⟩

/-- Witness of C1 at the specification's own example: `pc = 5`, addresses 1000, 1200, 1400. -/
theorem C1_end_to_end_stride_witness :
    (128 < 200 ∧ 200 < 2147483648)
      ∧ hasRequest (threeMisses true startState 5 1000 200) = true
      ∧ (getRequest (threeMisses true startState 5 1000 200)).addr
        = (1000 + 3 * 200) % 4294967296 :=
  ⟨⟨by decide, by decide⟩,
    C1_end_to_end_stride true startState 5 1000 200 (by decide) (by decide)⟩

set_option maxRecDepth 100000

/-- C2, counterexample. For `pc = 0`, `a = 200`, `s = 200` the second miss already finds a
repeated stride: the freshly cleared slot 0 reads as "pc 0 last touched address 0", so the
first miss records stride 200. The entry then reads confident and the staged address is 600,
not `(200 + 200) + 32`. -/
theorem C2_counterexample :
    ¬ (checkBit true (0 % NUM_RPT_ENTRIES) (twoMisses true startState 0 200 200).rpt_check
          RPT_CHECK_SIZE = false
        ∧ (getRequest (twoMisses true startState 0 200 200)).addr
          = (200 + 200 + 32) % 4294967296) := by
  decide

theorem stride_from_zero_eq {a s : Nat} (ha : a < 4294967296) (hs : s < 2147483648)
    (h : toInt32 (wrap32 ((a : Int) - ((0 : Nat) : Int))) = (s : Int)) : a = s := by
  unfold toInt32 wrap32 at h
  split at h <;> omega

/-- C2, amended. On an engine constructed over any prior memory, for every 32-bit address
`a`, every stride `s` with `128 < s < 2^31` and every program counter `pc`, except when
`pc = 0` and `a = s`, after demand misses by `pc` at `a` and `a + s` the confidence flag read
for `pc`'s slot is false and the staged address is `(a + s) + 32` modulo `2^32`. -/
theorem C2_two_misses_not_confident (signedChar : Bool) (prior : State) (pc a s : Nat)
    (ha : a < 4294967296) (hlo : 128 < s) (hhi : s < 2147483648) (hne : ¬ (pc = 0 ∧ a = s)) :
    checkBit signedChar (pc % NUM_RPT_ENTRIES) (twoMisses signedChar prior pc a s).rpt_check
        RPT_CHECK_SIZE = false
      ∧ (getRequest (twoMisses signedChar prior pc a s)).addr = (a + s + 32) % 4294967296 := by
  have hrowlt : pc % NUM_RPT_ENTRIES < NUM_RPT_ENTRIES := Nat.mod_lt _ (by decide)
  have h0 := Prefetcher_rpt_table prior hrowlt
  have h1o := cpuRequest_miss_row_owner signedChar (Prefetcher prior) (missEvent pc a) rfl
  have hpc1 : ((cpuRequest signedChar (Prefetcher prior) (missEvent pc a)).rpt_table
      (pc % NUM_RPT_ENTRIES)).pc = pc := h1o.1
  have hmem1 : ((cpuRequest signedChar (Prefetcher prior) (missEvent pc a)).rpt_table
      (pc % NUM_RPT_ENTRIES)).last_mem = a := h1o.2
  -- the stride the first miss leaves in the slot is not `s`
  have hstr1 : ((cpuRequest signedChar (Prefetcher prior) (missEvent pc a)).rpt_table
      (pc % NUM_RPT_ENTRIES)).last_stride ≠ (s : Int) := by
    by_cases hz : pc = 0
    · have hown : ((Prefetcher prior).rpt_table ((missEvent pc a).pc % NUM_RPT_ENTRIES)).pc
          = (missEvent pc a).pc := by
        show ((Prefetcher prior).rpt_table (pc % NUM_RPT_ENTRIES)).pc = pc
        rw [h0, hz]
      have hst := cpuRequest_miss_row_stride signedChar (Prefetcher prior) (missEvent pc a)
        rfl hown
      have hst2 : ((cpuRequest signedChar (Prefetcher prior) (missEvent pc a)).rpt_table
          (pc % NUM_RPT_ENTRIES)).last_stride
          = toInt32 (wrap32 ((a : Int)
              - (((Prefetcher prior).rpt_table (pc % NUM_RPT_ENTRIES)).last_mem : Int))) := hst
      rw [h0] at hst2
      rw [hst2]
      intro hcontra
      exact hne ⟨hz, stride_from_zero_eq ha hhi hcontra⟩
    · have hfor : ((Prefetcher prior).rpt_table ((missEvent pc a).pc % NUM_RPT_ENTRIES)).pc
          ≠ (missEvent pc a).pc := by
        show ((Prefetcher prior).rpt_table (pc % NUM_RPT_ENTRIES)).pc ≠ pc
        rw [h0]
        exact fun h => hz h.symm
      have hf := (cpuRequest_miss_foreign signedChar (Prefetcher prior) (missEvent pc a)
        rfl hfor).1
      have hf2 : (cpuRequest signedChar (Prefetcher prior) (missEvent pc a)).rpt_table
          (pc % NUM_RPT_ENTRIES) = { pc := pc, last_mem := a, last_stride := 0 } := hf
      rw [hf2]
      simp only
      omega
  -- so the second miss takes the "update to new stride" branch
  have hown2 : ((cpuRequest signedChar (Prefetcher prior) (missEvent pc a)).rpt_table
      ((missEvent pc ((a + s) % 4294967296)).pc % NUM_RPT_ENTRIES)).pc
      = (missEvent pc ((a + s) % 4294967296)).pc := hpc1
  have hnot : ¬ (toInt32 (wrap32 (((missEvent pc ((a + s) % 4294967296)).addr : Int)
        - (((cpuRequest signedChar (Prefetcher prior) (missEvent pc a)).rpt_table
            ((missEvent pc ((a + s) % 4294967296)).pc % NUM_RPT_ENTRIES)).last_mem : Int)))
        = ((cpuRequest signedChar (Prefetcher prior) (missEvent pc a)).rpt_table
            ((missEvent pc ((a + s) % 4294967296)).pc % NUM_RPT_ENTRIES)).last_stride
      ∧ toInt32 (wrap32 (((missEvent pc ((a + s) % 4294967296)).addr : Int)
        - (((cpuRequest signedChar (Prefetcher prior) (missEvent pc a)).rpt_table
            ((missEvent pc ((a + s) % 4294967296)).pc % NUM_RPT_ENTRIES)).last_mem : Int)))
        > WORTHWHILE_RPT) := by
    show ¬ (toInt32 (wrap32 ((((a + s) % 4294967296 : Nat) : Int)
        - (((cpuRequest signedChar (Prefetcher prior) (missEvent pc a)).rpt_table
            (pc % NUM_RPT_ENTRIES)).last_mem : Int)))
        = ((cpuRequest signedChar (Prefetcher prior) (missEvent pc a)).rpt_table
            (pc % NUM_RPT_ENTRIES)).last_stride
      ∧ _)
    rw [hmem1, stride_of_step a hhi]
    exact fun h => hstr1 h.1.symm
  have hu := cpuRequest_miss_unstable signedChar
    (cpuRequest signedChar (Prefetcher prior) (missEvent pc a))
    (missEvent pc ((a + s) % 4294967296)) rfl hown2 hnot
  constructor
  · have hchk : (twoMisses signedChar prior pc a s).rpt_check
        = unmarkBit (pc % NUM_RPT_ENTRIES)
            (cpuRequest signedChar (Prefetcher prior) (missEvent pc a)).rpt_check
            RPT_CHECK_SIZE := hu.2.2
    rw [hchk, checkBit_unmarkBit]
  · have haddr : (twoMisses signedChar prior pc a s)._nextReq.addr
        = wrap32 ((((a + s) % 4294967296 : Nat) : Int) + ((L2_BLOCK_SIZE : Nat) : Int)) := hu.2.1
    show (twoMisses signedChar prior pc a s)._nextReq.addr = _
    rw [haddr]
    unfold wrap32 L2_BLOCK_SIZE
    omega

/-- Witness of amended C2 at the specification's own example: `pc = 5`, addresses 1000 and
1200. -/
theorem C2_two_misses_not_confident_witness :
    (1000 < 4294967296 ∧ 128 < 200 ∧ 200 < 2147483648 ∧ ¬ (5 = 0 ∧ 1000 = 200))
      ∧ checkBit true (5 % NUM_RPT_ENTRIES) (twoMisses true startState 5 1000 200).rpt_check
          RPT_CHECK_SIZE = false
      ∧ (getRequest (twoMisses true startState 5 1000 200)).addr
        = (1000 + 200 + 32) % 4294967296 :=
  ⟨⟨by decide, by decide, by decide, by decide⟩,
    C2_two_misses_not_confident true startState 5 1000 200
      (by decide) (by decide) (by decide) (by decide)⟩

/-- Where `char` is unsigned the confidence flag reads true after three misses with a
repeated worthwhile stride, for every program counter. -/
theorem threeMisses_flag_unsigned (prior : State) (pc a : Nat) {s : Nat}
    (hlo : 128 < s) (hhi : s < 2147483648) :
    checkBit false (pc % NUM_RPT_ENTRIES) (threeMisses false prior pc a s).rpt_check
      RPT_CHECK_SIZE = true := by
  rw [(threeMisses_confident false prior pc a hlo hhi).2, checkBit_markBit_unsigned]

/-- C3, at the failing input. Where `char` is signed, after demand misses by `pc = 7` at
1000, 1200, 1400 the slot has been marked confident (bit 7 of byte 0 of `rpt_check` is set),
yet the confidence flag read for slot `7 mod 128` by `checkBit` is false: the selector byte
`1 << 7` is negative and `result > 0` fails.  Where `char` is unsigned the same read is
true. -/
theorem C3_confidence_flag_signed_char (prior : State) :
    checkBit true (7 % NUM_RPT_ENTRIES) (threeMisses true prior 7 1000 200).rpt_check
        RPT_CHECK_SIZE = false
      ∧ ((threeMisses true prior 7 1000 200).rpt_check 0).testBit 7 = true
      ∧ checkBit false (7 % NUM_RPT_ENTRIES) (threeMisses false prior 7 1000 200).rpt_check
        RPT_CHECK_SIZE = true := by
  refine ⟨?_, ?_, threeMisses_flag_unsigned prior 7 1000 (by decide) (by decide)⟩
  · rw [(threeMisses_confident true prior 7 1000 (by decide) (by decide)).2, checkBit_markBit]
    decide
  · rw [(threeMisses_confident true prior 7 1000 (by decide) (by decide)).2, markBit_apply,
      if_pos (by decide), marked_testBit _ _ (remBits_lt _ _)]
    have : remBits (7 % NUM_RPT_ENTRIES) RPT_CHECK_SIZE = 7 := by decide
    simp [this]

/-! ## Quota -/

theorem cpuRequest_hit (signedChar : Bool) (st : State) (req : Request)
    (h : req.HitL1 = true ∧ checkBit signedChar req.addr st.tags STATE_SIZE = true
      ∧ st._ready = false) :
    cpuRequest signedChar st req =
      { hitBranch signedChar st req with
        tags := unmarkBit req.addr (hitBranch signedChar st req).tags STATE_SIZE } := by
  unfold cpuRequest
  rw [if_pos h]

theorem cpuRequest_trigger_armed (signedChar : Bool) (st : State) (req : Request)
    (h : req.HitL1 = false
      ∨ (req.HitL1 = true ∧ checkBit signedChar req.addr st.tags STATE_SIZE = true
        ∧ st._ready = false)) :
    (cpuRequest signedChar st req)._ready = true
      ∧ (cpuRequest signedChar st req)._req_left = 2 := by
  rcases h with h | h
  · exact cpuRequest_miss_ready signedChar st req h
  · rw [cpuRequest_hit signedChar st req h]
    exact ⟨rfl, rfl⟩

theorem completeRequest_chain (signedChar : Bool) (st : State) (h : st._req_left ≠ 0) :
    (completeRequest signedChar st)._ready = st._ready
      ∧ (completeRequest signedChar st)._req_left = st._req_left - 1 := by
  unfold completeRequest
  rw [if_neg h]
  exact ⟨rfl, rfl⟩

theorem completeRequest_last (signedChar : Bool) (st : State) (h : st._req_left = 0) :
    completeRequest signedChar st = { st with _ready := false } := by
  unfold completeRequest
  rw [if_pos h]

/-- C4. Quota exhaustion: from every engine state, a triggering event (a demand miss, or an
L1 hit on an address that tests as tagged while no request is staged) leaves the engine
armed with quota 2, whatever it held before; `hasRequest` is true after the first and the
second following `completeRequest` (quota 1, then 0) and false after the third, which stages
nothing new. -/
theorem C4_quota_exhaustion (signedChar : Bool) (st : State) (req : Request)
    (h : req.HitL1 = false
      ∨ (req.HitL1 = true ∧ checkBit signedChar req.addr st.tags STATE_SIZE = true
        ∧ st._ready = false)) :
    hasRequest (cpuRequest signedChar st req) = true
      ∧ (cpuRequest signedChar st req)._req_left = 2
      ∧ hasRequest (completeRequest signedChar (cpuRequest signedChar st req)) = true
      ∧ (completeRequest signedChar (cpuRequest signedChar st req))._req_left = 1
      ∧ hasRequest (completeRequest signedChar
          (completeRequest signedChar (cpuRequest signedChar st req))) = true
      ∧ (completeRequest signedChar
          (completeRequest signedChar (cpuRequest signedChar st req)))._req_left = 0
      ∧ hasRequest (completeRequest signedChar (completeRequest signedChar
          (completeRequest signedChar (cpuRequest signedChar st req)))) = false
      ∧ getRequest (completeRequest signedChar (completeRequest signedChar
          (completeRequest signedChar (cpuRequest signedChar st req))))
        = getRequest (completeRequest signedChar
            (completeRequest signedChar (cpuRequest signedChar st req))) := by
  obtain ⟨hr1, hq1⟩ := cpuRequest_trigger_armed signedChar st req h
  have hne1 : (cpuRequest signedChar st req)._req_left ≠ 0 := by rw [hq1]; decide
  obtain ⟨hr2, hq2⟩ := completeRequest_chain signedChar _ hne1
  rw [hq1] at hq2
  rw [hr1] at hr2
  have hq2b : (completeRequest signedChar (cpuRequest signedChar st req))._req_left = 1 := by
    rw [hq2]; decide
  have hne2 : (completeRequest signedChar (cpuRequest signedChar st req))._req_left ≠ 0 := by
    rw [hq2b]; decide
  obtain ⟨hr3, hq3⟩ := completeRequest_chain signedChar _ hne2
  rw [hq2b] at hq3
  rw [hr2] at hr3
  have hq3b : (completeRequest signedChar
      (completeRequest signedChar (cpuRequest signedChar st req)))._req_left = 0 := by
    rw [hq3]; decide
  have h4 := completeRequest_last signedChar _ hq3b
  refine ⟨hr1, hq1, hr2, hq2b, hr3, hq3b, ?_, ?_⟩
  · rw [h4]; rfl
  · rw [h4]; rfl

/-- Witness of C4 at a demand miss by `pc = 5` at address 1000 on the start-up state. -/
theorem C4_quota_exhaustion_witness :
    (missEvent 5 1000).HitL1 = false
      ∧ hasRequest (completeRequest true (completeRequest true
          (cpuRequest true startState (missEvent 5 1000)))) = true
      ∧ hasRequest (completeRequest true (completeRequest true (completeRequest true
          (cpuRequest true startState (missEvent 5 1000))))) = false :=
  ⟨rfl,
    (C4_quota_exhaustion true startState (missEvent 5 1000) (Or.inl rfl)).2.2.2.2.1,
    (C4_quota_exhaustion true startState (missEvent 5 1000) (Or.inl rfl)).2.2.2.2.2.2.1⟩

/-! ## Tagging -/

/-- C5, at the failing input. A demand miss by `pc = 5` at address 1000 on a freshly
constructed engine stages address 1032, which maps to another bit than 1000, and yet 1032
does not test as tagged afterwards: the miss branch never calls `markBit` on `tags`, so the
tag array is the prior one with the accessed address unmarked and nothing else. -/
theorem C5_miss_leaves_prediction_untagged (signedChar : Bool) :
    (getRequest (cpuRequest signedChar (Prefetcher startState) (missEvent 5 1000))).addr = 1032
      ∧ bitIndex 1032 STATE_SIZE ≠ bitIndex 1000 STATE_SIZE
      ∧ checkBit signedChar 1032
          (cpuRequest signedChar (Prefetcher startState) (missEvent 5 1000)).tags STATE_SIZE
        = false
      ∧ (cpuRequest signedChar (Prefetcher startState) (missEvent 5 1000)).tags
        = unmarkBit 1000 (Prefetcher startState).tags STATE_SIZE := by
  refine ⟨?_, by decide, ?_, cpuRequest_miss_tags signedChar _ _ rfl⟩
  · cases signedChar <;> decide
  · cases signedChar <;> decide

/-- C6, at the failing input. After demand misses by `pc = 5` at 1000, 1200, 1400 on a
freshly constructed engine, slot 5 is owned by 5, reads confident and holds stride 200, the
staged address is 1600 and the quota is 2; the next `completeRequest` stages 1632, not
`1600 + 200`.  `cpuRequest` never writes the staged request's `pc` (it is the unrelated
value the object held before, here 0), and the chained lookup is keyed by that field. -/
theorem C6_chained_lookup_ignores_trigger (signedChar : Bool) :
    ((threeMisses signedChar startState 5 1000 200).rpt_table (5 % NUM_RPT_ENTRIES)).pc = 5
      ∧ ((threeMisses signedChar startState 5 1000 200).rpt_table
          (5 % NUM_RPT_ENTRIES)).last_stride = 200
      ∧ checkBit signedChar (5 % NUM_RPT_ENTRIES)
          (threeMisses signedChar startState 5 1000 200).rpt_check RPT_CHECK_SIZE = true
      ∧ (getRequest (threeMisses signedChar startState 5 1000 200)).addr = 1600
      ∧ (getRequest (threeMisses signedChar startState 5 1000 200)).pc = 0
      ∧ (threeMisses signedChar startState 5 1000 200)._req_left = 2
      ∧ (getRequest (completeRequest signedChar
          (threeMisses signedChar startState 5 1000 200))).addr = 1632 := by
  cases signedChar <;> decide

/-- C7, at the failing input. Where `char` is signed, `test(7)` is false immediately after
`mark(7)`, for every tag state: bit 7 of byte 0 is set, but the selector byte `1 << 7` is
negative and `result > 0` fails. -/
theorem C7_mark_then_test_signed_char (tags : Nat → Nat) :
    checkBit true 7 (markBit 7 tags STATE_SIZE) STATE_SIZE = false
      ∧ ((markBit 7 tags STATE_SIZE) 0).testBit 7 = true := by
  constructor
  · rw [checkBit_markBit]
    decide
  · rw [markBit_apply, if_pos (by decide), marked_testBit _ _ (remBits_lt _ _)]
    have : remBits 7 STATE_SIZE = 7 := by decide
    simp [this]

/-- C8, at the failing input. Addresses 0 and 2048 differ modulo 16384, yet they share bit 0
of byte 0: the bit index is the address modulo `STATE_SIZE * sizeof(char) = 2048`.  On the
cleared tag array `test(2048)` is false, and it is true after `mark(0)`; after `mark(2048)`
it is true, and false again after `unmark(0)`. -/
theorem C8_tag_index_is_mod_2048 (signedChar : Bool) :
    0 % 16384 ≠ 2048 % 16384
      ∧ bitIndex 2048 STATE_SIZE = bitIndex 0 STATE_SIZE
      ∧ checkBit signedChar 2048 startState.tags STATE_SIZE = false
      ∧ checkBit signedChar 2048 (markBit 0 startState.tags STATE_SIZE) STATE_SIZE = true
      ∧ checkBit signedChar 2048 (markBit 2048 startState.tags STATE_SIZE) STATE_SIZE = true
      ∧ checkBit signedChar 2048
          (unmarkBit 0 (markBit 2048 startState.tags STATE_SIZE) STATE_SIZE) STATE_SIZE
        = false := by
  cases signedChar <;> decide

theorem bitIndex_congr {a b : Nat} (h : a % 16384 = b % 16384) :
    a % (STATE_SIZE * sizeof_char) = b % (STATE_SIZE * sizeof_char) := by
  unfold STATE_SIZE sizeof_char
  omega

/-- C9. Aliasing: for every tag state and all addresses `a`, `b` congruent modulo 16384,
`test(a) = test(b)`, `mark(a)` yields the same tag state as `mark(b)`, and `unmark(a)` the
same as `unmark(b)`. -/
theorem C9_aliasing (signedChar : Bool) (tags : Nat → Nat) (a b : Nat)
    (h : a % 16384 = b % 16384) :
    checkBit signedChar a tags STATE_SIZE = checkBit signedChar b tags STATE_SIZE
      ∧ markBit a tags STATE_SIZE = markBit b tags STATE_SIZE
      ∧ unmarkBit a tags STATE_SIZE = unmarkBit b tags STATE_SIZE := by
  have hi := bitIndex_congr h
  unfold checkBit markBit unmarkBit
  rw [hi]
  exact ⟨rfl, rfl, rfl⟩

/-- Witness of C9 at addresses 5 and `5 + 16384`. -/
theorem C9_aliasing_witness :
    5 % 16384 = 16389 % 16384
      ∧ checkBit true 5 startState.tags STATE_SIZE = checkBit true 16389 startState.tags STATE_SIZE
      ∧ markBit 5 startState.tags STATE_SIZE = markBit 16389 startState.tags STATE_SIZE
      ∧ unmarkBit 5 startState.tags STATE_SIZE = unmarkBit 16389 startState.tags STATE_SIZE :=
  ⟨by decide, C9_aliasing true startState.tags 5 16389 (by decide)⟩

/-- C10. `cpuRequest` always untags the accessed address: for every engine state and every
event, `test(event.address)` is false immediately after `cpuRequest(event)`. -/
theorem C10_cpuRequest_untags_address (signedChar : Bool) (st : State) (req : Request) :
    checkBit signedChar req.addr (cpuRequest signedChar st req).tags STATE_SIZE = false := by
  unfold cpuRequest
  exact checkBit_unmarkBit signedChar req.addr _ STATE_SIZE

/-! ## Update and consumption policies -/

/-- C11. Demand-miss RPT update policy: for every engine state and every event with
`HitL1 = false`, with `e` the row at slot `pc mod 128` and `stride` the signed 32-bit value of
`addr - e.last_mem`: if `e.pc = pc`, `stride = e.last_stride` and `stride > 128`, the staged
address is `addr + stride` and `last_stride` is unchanged; if `e.pc = pc` otherwise, the
staged address is `addr + 32` and `last_stride` becomes `stride`; if `e.pc ≠ pc`, the staged
address is `addr + 32` and `last_stride` becomes 0; in every case the slot ends with
`pc = req.pc` and `last_mem = req.addr` (additions modulo `2^32`). -/
theorem C11_miss_update_policy (signedChar : Bool) (st : State) (req : Request)
    (h : req.HitL1 = false) :
    ((st.rpt_table (req.pc % NUM_RPT_ENTRIES)).pc = req.pc
        ∧ toInt32 (wrap32 ((req.addr : Int)
            - ((st.rpt_table (req.pc % NUM_RPT_ENTRIES)).last_mem : Int)))
          = (st.rpt_table (req.pc % NUM_RPT_ENTRIES)).last_stride
        ∧ toInt32 (wrap32 ((req.addr : Int)
            - ((st.rpt_table (req.pc % NUM_RPT_ENTRIES)).last_mem : Int))) > 128 →
      (getRequest (cpuRequest signedChar st req)).addr
          = wrap32 ((req.addr : Int) + toInt32 (wrap32 ((req.addr : Int)
              - ((st.rpt_table (req.pc % NUM_RPT_ENTRIES)).last_mem : Int))))
        ∧ ((cpuRequest signedChar st req).rpt_table (req.pc % NUM_RPT_ENTRIES)).last_stride
          = (st.rpt_table (req.pc % NUM_RPT_ENTRIES)).last_stride)
      ∧ ((st.rpt_table (req.pc % NUM_RPT_ENTRIES)).pc = req.pc
        ∧ ¬ (toInt32 (wrap32 ((req.addr : Int)
              - ((st.rpt_table (req.pc % NUM_RPT_ENTRIES)).last_mem : Int)))
            = (st.rpt_table (req.pc % NUM_RPT_ENTRIES)).last_stride
          ∧ toInt32 (wrap32 ((req.addr : Int)
              - ((st.rpt_table (req.pc % NUM_RPT_ENTRIES)).last_mem : Int))) > 128) →
      (getRequest (cpuRequest signedChar st req)).addr = (req.addr + 32) % 4294967296
        ∧ ((cpuRequest signedChar st req).rpt_table (req.pc % NUM_RPT_ENTRIES)).last_stride
          = toInt32 (wrap32 ((req.addr : Int)
              - ((st.rpt_table (req.pc % NUM_RPT_ENTRIES)).last_mem : Int))))
      ∧ ((st.rpt_table (req.pc % NUM_RPT_ENTRIES)).pc ≠ req.pc →
      (getRequest (cpuRequest signedChar st req)).addr = (req.addr + 32) % 4294967296
        ∧ ((cpuRequest signedChar st req).rpt_table (req.pc % NUM_RPT_ENTRIES)).last_stride = 0)
      ∧ ((cpuRequest signedChar st req).rpt_table (req.pc % NUM_RPT_ENTRIES)).pc = req.pc
      ∧ ((cpuRequest signedChar st req).rpt_table (req.pc % NUM_RPT_ENTRIES)).last_mem
        = req.addr := by
  have h32 : wrap32 ((req.addr : Int) + ((L2_BLOCK_SIZE : Nat) : Int))
      = (req.addr + 32) % 4294967296 := by
    unfold wrap32 L2_BLOCK_SIZE
    omega
  refine ⟨?_, ?_, ?_, cpuRequest_miss_row_owner signedChar st req h⟩
  · rintro ⟨hpc, hs, hw⟩
    have hc := cpuRequest_miss_confident signedChar st req h hpc ⟨hs, hw⟩
    refine ⟨?_, ?_⟩
    · show (cpuRequest signedChar st req)._nextReq.addr = _
      rw [hc.2.1, hs]
    · rw [hc.1]
  · rintro ⟨hpc, hs⟩
    have hu := cpuRequest_miss_unstable signedChar st req h hpc hs
    refine ⟨?_, ?_⟩
    · show (cpuRequest signedChar st req)._nextReq.addr = _
      rw [hu.2.1]
      exact h32
    · rw [hu.1]
  · intro hpc
    have hf := cpuRequest_miss_foreign signedChar st req h hpc
    refine ⟨?_, ?_⟩
    · show (cpuRequest signedChar st req)._nextReq.addr = _
      rw [hf.2.1]
      exact h32
    · rw [hf.1]

/-- Witness of C11 at a demand miss by `pc = 5` at address 1000 on the start-up state, whose
slot 5 is owned by `pc = 0`: the staged address is 1032 and the slot ends as
`(5, 1000, 0)`. -/
theorem C11_miss_update_policy_witness :
    (missEvent 5 1000).HitL1 = false
      ∧ ((getRequest (cpuRequest true startState (missEvent 5 1000))).addr
          = (1000 + 32) % 4294967296
        ∧ ((cpuRequest true startState (missEvent 5 1000)).rpt_table
            (5 % NUM_RPT_ENTRIES)).last_stride = 0)
      ∧ ((cpuRequest true startState (missEvent 5 1000)).rpt_table (5 % NUM_RPT_ENTRIES)).pc = 5
      ∧ ((cpuRequest true startState (missEvent 5 1000)).rpt_table
          (5 % NUM_RPT_ENTRIES)).last_mem = 1000 :=
  ⟨rfl,
    (C11_miss_update_policy true startState (missEvent 5 1000) rfl).2.2.1 (by decide),
    (C11_miss_update_policy true startState (missEvent 5 1000) rfl).2.2.2⟩

/-- C12. Consumption policy: for every engine state with no staged request and every event
with `HitL1 = true` whose address tests as tagged, after `cpuRequest` the staged address is
`addr + last_stride` if the slot at `pc mod 128` is owned by `pc` and reads confident, and
`addr + 32` otherwise (modulo `2^32`); the engine is armed with quota 2; and the tag array is
the prior one with the staged address marked and then the accessed address unmarked. -/
theorem C12_consumption_policy (signedChar : Bool) (st : State) (req : Request)
    (hhit : req.HitL1 = true)
    (htag : checkBit signedChar req.addr st.tags STATE_SIZE = true)
    (hidle : hasRequest st = false) :
    (getRequest (cpuRequest signedChar st req)).addr
        = (if (st.rpt_table (req.pc % NUM_RPT_ENTRIES)).pc = req.pc
              ∧ checkBit signedChar (req.pc % NUM_RPT_ENTRIES) st.rpt_check RPT_CHECK_SIZE = true
            then wrap32 ((req.addr : Int) + (st.rpt_table (req.pc % NUM_RPT_ENTRIES)).last_stride)
            else (req.addr + 32) % 4294967296)
      ∧ hasRequest (cpuRequest signedChar st req) = true
      ∧ (cpuRequest signedChar st req)._req_left = 2
      ∧ (cpuRequest signedChar st req).tags
        = unmarkBit req.addr
            (markBit (getRequest (cpuRequest signedChar st req)).addr st.tags STATE_SIZE)
            STATE_SIZE := by
  have h32 : wrap32 ((req.addr : Int) + ((L2_BLOCK_SIZE : Nat) : Int))
      = (req.addr + 32) % 4294967296 := by
    unfold wrap32 L2_BLOCK_SIZE
    omega
  rw [cpuRequest_hit signedChar st req ⟨hhit, htag, hidle⟩]
  refine ⟨?_, rfl, rfl, rfl⟩
  show (hitBranch signedChar st req)._nextReq.addr = _
  unfold hitBranch
  simp only []
  rw [h32]

/-- Witness of C12 at an L1 hit by `pc = 5` on address 1032 of a state in which 1032 is
tagged and nothing is staged: the staged address is 1064 and the quota is 2. -/
theorem C12_consumption_policy_witness :
    ((hitEvent 5 1032).HitL1 = true
        ∧ checkBit true (hitEvent 5 1032).addr taggedState.tags STATE_SIZE = true
        ∧ hasRequest taggedState = false)
      ∧ (getRequest (cpuRequest true taggedState (hitEvent 5 1032))).addr = 1064
      ∧ hasRequest (cpuRequest true taggedState (hitEvent 5 1032)) = true
      ∧ (cpuRequest true taggedState (hitEvent 5 1032))._req_left = 2 :=
  ⟨⟨rfl, by decide, rfl⟩,
    ((C12_consumption_policy true taggedState (hitEvent 5 1032) rfl (by decide) rfl).1.trans
      (by decide)),
    (C12_consumption_policy true taggedState (hitEvent 5 1032) rfl (by decide) rfl).2.1,
    (C12_consumption_policy true taggedState (hitEvent 5 1032) rfl (by decide) rfl).2.2.1⟩

/-! ## Reset -/

theorem unmarkBit_keeps_clear (i : Nat) (bitArray : Nat → Nat) (size k r : Nat)
    (h : (bitArray k).testBit r = false) :
    ((unmarkBit i bitArray size) k).testBit r = false := by
  rw [unmarkBit_apply]
  by_cases hk : k = charIndex i size
  · rw [if_pos hk, unmarked_testBit _ _ (remBits_lt i size), ← hk, h]
    simp
  · rw [if_neg hk, h]

theorem unmarkBit_clears (i : Nat) (bitArray : Nat → Nat) (size : Nat) :
    ((unmarkBit i bitArray size) (charIndex i size)).testBit (remBits i size) = false := by
  rw [unmarkBit_apply, if_pos rfl, unmarked_testBit _ _ (remBits_lt i size)]
  simp

theorem foldl_ctorStep_keeps_clear (l : List Nat) (st : State) (k r : Nat)
    (h : (st.rpt_check k).testBit r = false) :
    ((l.foldl ctorStep st).rpt_check k).testBit r = false := by
  induction l generalizing st with
  | nil => exact h
  | cons i l ih =>
    rw [List.foldl_cons]
    exact ih (ctorStep st i) (unmarkBit_keeps_clear i st.rpt_check RPT_CHECK_SIZE k r h)

theorem foldl_ctorStep_clears (l : List Nat) (st : State) (i : Nat) (hi : i ∈ l) :
    ((l.foldl ctorStep st).rpt_check (charIndex i RPT_CHECK_SIZE)).testBit
      (remBits i RPT_CHECK_SIZE) = false := by
  induction l generalizing st with
  | nil => simp at hi
  | cons j l ih =>
    rw [List.foldl_cons]
    rcases List.mem_cons.mp hi with hij | hil
    · subst hij
      exact foldl_ctorStep_keeps_clear l _ _ _ (unmarkBit_clears i st.rpt_check RPT_CHECK_SIZE)
    · exact ih (ctorStep st j) hil

theorem bitIndex_mod (j size : Nat) : bitIndex (j % size) size = bitIndex j size := by
  unfold bitIndex sizeof_char
  rw [Nat.mul_one, Nat.mod_mod]

theorem charIndex_lt (addr : Nat) {size : Nat} (h : 0 < size) : charIndex addr size < size := by
  unfold charIndex bitIndex sizeof_char BITS_PER_CHAR
  rw [Nat.mul_one]
  have := Nat.mod_lt addr h
  omega

/-- C13. Reset: for every prior contents of the object and the three tables, immediately
after construction `hasRequest` is false, `test(a)` is false for every address `a`, and the
confidence flag read for every RPT slot (every `j`, in particular 0..127) is false. -/
theorem C13_reset (signedChar : Bool) (prior : State) :
    hasRequest (Prefetcher prior) = false
      ∧ (∀ a : Nat, checkBit signedChar a (Prefetcher prior).tags STATE_SIZE = false)
      ∧ (∀ j : Nat,
          checkBit signedChar j (Prefetcher prior).rpt_check RPT_CHECK_SIZE = false) := by
  refine ⟨Prefetcher_ready prior, ?_, ?_⟩
  · intro a
    rw [checkBit_eq, Prefetcher_tags prior (charIndex_lt a (by decide)), Nat.zero_testBit]
    rfl
  · intro j
    have hmem : j % RPT_CHECK_SIZE ∈ List.range NUM_RPT_ENTRIES := by
      rw [List.mem_range]
      have : j % RPT_CHECK_SIZE < RPT_CHECK_SIZE := Nat.mod_lt _ (by decide)
      unfold RPT_CHECK_SIZE NUM_RPT_ENTRIES at *
      omega
    have hc := foldl_ctorStep_clears (List.range NUM_RPT_ENTRIES)
      { prior with
        _ready := false
        tags := fun j => if j < STATE_SIZE then 0 else prior.tags j }
      (j % RPT_CHECK_SIZE) hmem
    have hci : charIndex (j % RPT_CHECK_SIZE) RPT_CHECK_SIZE = charIndex j RPT_CHECK_SIZE := by
      unfold charIndex
      rw [bitIndex_mod]
    have hri : remBits (j % RPT_CHECK_SIZE) RPT_CHECK_SIZE = remBits j RPT_CHECK_SIZE := by
      unfold remBits charIndex
      rw [bitIndex_mod]
    rw [hci, hri] at hc
    rw [checkBit_eq]
    have hc2 : ((Prefetcher prior).rpt_check (charIndex j RPT_CHECK_SIZE)).testBit
        (remBits j RPT_CHECK_SIZE) = false := hc
    rw [hc2]
    rfl

/-! ## Array bounds -/

theorem markBit_beyond (addr : Nat) (bitArray : Nat → Nat) {size : Nat} (h : 0 < size)
    (k : Nat) : markBit addr bitArray size (size + k) = bitArray (size + k) := by
  rw [markBit_apply, if_neg]
  have := charIndex_lt addr h
  omega

theorem unmarkBit_beyond (addr : Nat) (bitArray : Nat → Nat) {size : Nat} (h : 0 < size)
    (k : Nat) : unmarkBit addr bitArray size (size + k) = bitArray (size + k) := by
  rw [unmarkBit_apply, if_neg]
  have := charIndex_lt addr h
  omega

theorem store_beyond {α : Type} (a : Nat → α) (pc : Nat) (v : α) (k : Nat) :
    store a (pc % NUM_RPT_ENTRIES) v (NUM_RPT_ENTRIES + k) = a (NUM_RPT_ENTRIES + k) := by
  unfold store
  rw [if_neg]
  have : pc % NUM_RPT_ENTRIES < NUM_RPT_ENTRIES := Nat.mod_lt _ (by decide)
  omega

theorem completeRequest_rpt (signedChar : Bool) (st : State) :
    (completeRequest signedChar st).rpt_table = st.rpt_table
      ∧ (completeRequest signedChar st).rpt_check = st.rpt_check := by
  unfold completeRequest
  split <;> exact ⟨rfl, rfl⟩

theorem cpuRequest_hit_rpt (signedChar : Bool) (st : State) (req : Request)
    (h : req.HitL1 = true) :
    (cpuRequest signedChar st req).rpt_table = st.rpt_table
      ∧ (cpuRequest signedChar st req).rpt_check = st.rpt_check := by
  have hne : ¬ req.HitL1 = false := by rw [h]; decide
  unfold cpuRequest
  simp only []
  rw [if_neg hne]
  split <;> exact ⟨rfl, rfl⟩

theorem rptProcess_beyond (st : State) (req : Request) (k : Nat) :
    (rptProcess st req).rpt_check (RPT_CHECK_SIZE + k) = st.rpt_check (RPT_CHECK_SIZE + k)
      ∧ (rptProcess st req).rpt_table (NUM_RPT_ENTRIES + k)
        = st.rpt_table (NUM_RPT_ENTRIES + k) := by
  unfold rptProcess
  simp only []
  split
  · split
    · exact ⟨markBit_beyond _ _ (by decide) k, rfl⟩
    · exact ⟨unmarkBit_beyond _ _ (by decide) k, store_beyond _ _ _ k⟩
  · exact ⟨unmarkBit_beyond _ _ (by decide) k, store_beyond _ _ _ k⟩

theorem cpuRequest_beyond (signedChar : Bool) (st : State) (req : Request) (k : Nat) :
    (cpuRequest signedChar st req).tags (STATE_SIZE + k) = st.tags (STATE_SIZE + k)
      ∧ (cpuRequest signedChar st req).rpt_check (RPT_CHECK_SIZE + k)
        = st.rpt_check (RPT_CHECK_SIZE + k)
      ∧ (cpuRequest signedChar st req).rpt_table (NUM_RPT_ENTRIES + k)
        = st.rpt_table (NUM_RPT_ENTRIES + k) := by
  unfold cpuRequest
  simp only []
  split
  · refine ⟨?_, rfl, rfl⟩
    rw [unmarkBit_beyond _ _ (by decide) k]
    exact markBit_beyond _ _ (by decide) k
  · split
    · refine ⟨?_, (rptProcess_beyond st req k).1, ?_⟩
      · rw [unmarkBit_beyond _ _ (by decide) k]
        show (rptProcess st req).tags (STATE_SIZE + k) = _
        rw [rptProcess_tags]
      · show store (rptProcess st req).rpt_table (req.pc % NUM_RPT_ENTRIES) _
          (NUM_RPT_ENTRIES + k) = _
        rw [store_beyond]
        exact (rptProcess_beyond st req k).2
    · exact ⟨unmarkBit_beyond _ _ (by decide) k, rfl, rfl⟩

theorem completeRequest_beyond (signedChar : Bool) (st : State) (k : Nat) :
    (completeRequest signedChar st).tags (STATE_SIZE + k) = st.tags (STATE_SIZE + k) := by
  unfold completeRequest
  split
  · rfl
  · exact markBit_beyond _ _ (by decide) k

theorem foldl_ctorStep_beyond (l : List Nat) (st : State) (k : Nat) :
    (l.foldl ctorStep st).rpt_check (RPT_CHECK_SIZE + k) = st.rpt_check (RPT_CHECK_SIZE + k) := by
  induction l generalizing st with
  | nil => rfl
  | cons i l ih =>
    rw [List.foldl_cons, ih]
    exact unmarkBit_beyond i st.rpt_check (by decide) k

theorem Prefetcher_beyond (prior : State) (k : Nat) :
    (Prefetcher prior).tags (STATE_SIZE + k) = prior.tags (STATE_SIZE + k)
      ∧ (Prefetcher prior).rpt_check (RPT_CHECK_SIZE + k) = prior.rpt_check (RPT_CHECK_SIZE + k)
      ∧ (Prefetcher prior).rpt_table (NUM_RPT_ENTRIES + k)
        = prior.rpt_table (NUM_RPT_ENTRIES + k) := by
  unfold Prefetcher
  refine ⟨?_, ?_, ?_⟩
  · rw [foldl_ctorStep_tags]
    show (if STATE_SIZE + k < STATE_SIZE then 0 else prior.tags (STATE_SIZE + k)) = _
    rw [if_neg (by omega)]
  · rw [foldl_ctorStep_beyond]
  · rw [foldl_ctorStep_rpt_table, if_neg]
    rw [List.mem_range]
    omega

/-! ## Reads stay inside the arrays -/

theorem checkBit_local (signedChar : Bool) (x : Nat) {a b : Nat → Nat} {size : Nat}
    (hsize : 0 < size) (h : ∀ k, k < size → a k = b k) :
    checkBit signedChar x a size = checkBit signedChar x b size := by
  rw [checkBit_eq, checkBit_eq, h _ (charIndex_lt x hsize)]

theorem markBit_local (x : Nat) {a b : Nat → Nat} {size : Nat}
    (hsize : 0 < size) (h : ∀ k, k < size → a k = b k) :
    ∀ k, k < size → markBit x a size k = markBit x b size k := by
  intro k hk
  rw [markBit_apply, markBit_apply, h _ (charIndex_lt x hsize), h k hk]

theorem unmarkBit_local (x : Nat) {a b : Nat → Nat} {size : Nat}
    (hsize : 0 < size) (h : ∀ k, k < size → a k = b k) :
    ∀ k, k < size → unmarkBit x a size k = unmarkBit x b size k := by
  intro k hk
  rw [unmarkBit_apply, unmarkBit_apply, h _ (charIndex_lt x hsize), h k hk]

theorem store_local {α : Type} {a b : Nat → α} {n : Nat} (i : Nat) (v : α)
    (h : ∀ k, k < n → a k = b k) :
    ∀ k, k < n → store a i v k = store b i v k := by
  intro k hk
  unfold store
  rw [h k hk]

theorem row_local {s t : State} (pc : Nat) (h : inBoundsEq s t) :
    s.rpt_table (pc % NUM_RPT_ENTRIES) = t.rpt_table (pc % NUM_RPT_ENTRIES) :=
  h.2.2.2.2.2 _ (Nat.mod_lt _ (by decide))

theorem flag_local (signedChar : Bool) {s t : State} (x : Nat) (h : inBoundsEq s t) :
    checkBit signedChar x s.rpt_check RPT_CHECK_SIZE
      = checkBit signedChar x t.rpt_check RPT_CHECK_SIZE :=
  checkBit_local signedChar x (by decide) h.2.2.2.2.1

theorem tag_local (signedChar : Bool) {s t : State} (x : Nat) (h : inBoundsEq s t) :
    checkBit signedChar x s.tags STATE_SIZE = checkBit signedChar x t.tags STATE_SIZE :=
  checkBit_local signedChar x (by decide) h.2.2.2.1

theorem hitBranch_local (signedChar : Bool) {s t : State} (req : Request)
    (h : inBoundsEq s t) :
    inBoundsEq (hitBranch signedChar s req) (hitBranch signedChar t req) := by
  have hrow := row_local req.pc h
  have hflag := flag_local signedChar (req.pc % NUM_RPT_ENTRIES) h
  obtain ⟨_, hn, _, ht, hc, hr⟩ := h
  unfold hitBranch
  simp only []
  rw [hrow, hflag, hn]
  exact ⟨rfl, rfl, rfl, markBit_local _ (by decide) ht, hc, hr⟩

theorem completeRequest_local (signedChar : Bool) {s t : State} (h : inBoundsEq s t) :
    inBoundsEq (completeRequest signedChar s) (completeRequest signedChar t) := by
  have hrow := row_local t._nextReq.pc h
  have hflag := flag_local signedChar (t._nextReq.pc % NUM_RPT_ENTRIES) h
  obtain ⟨hrd, hn, hq, ht, hc, hr⟩ := h
  unfold completeRequest
  rw [hq, hn]
  split
  · exact ⟨rfl, rfl, rfl, ht, hc, hr⟩
  · simp only []
    rw [hrow, hflag]
    exact ⟨hrd, rfl, rfl, markBit_local _ (by decide) ht, hc, hr⟩

theorem rptProcess_local {s t : State} (req : Request) (h : inBoundsEq s t) :
    inBoundsEq (rptProcess s req) (rptProcess t req) := by
  have hrow := row_local req.pc h
  obtain ⟨hrd, hn, hq, ht, hc, hr⟩ := h
  unfold rptProcess
  simp only []
  rw [hrow, hn]
  split
  · split
    · exact ⟨hrd, rfl, hq, ht, markBit_local _ (by decide) hc, hr⟩
    · exact ⟨hrd, rfl, hq, ht, unmarkBit_local _ (by decide) hc, store_local _ _ hr⟩
  · exact ⟨hrd, rfl, hq, ht, unmarkBit_local _ (by decide) hc, store_local _ _ hr⟩

theorem missBranch_local {s t : State} (req : Request) (h : inBoundsEq s t) :
    inBoundsEq (missBranch s req) (missBranch t req) := by
  have hp := rptProcess_local req h
  have hrow := row_local req.pc hp
  obtain ⟨_, hn, _, ht, hc, hr⟩ := hp
  unfold missBranch
  simp only []
  rw [hrow]
  exact ⟨rfl, hn, rfl, ht, hc, store_local _ _ hr⟩

theorem cpuRequest_local (signedChar : Bool) {s t : State} (req : Request)
    (h : inBoundsEq s t) :
    inBoundsEq (cpuRequest signedChar s req) (cpuRequest signedChar t req) := by
  have htag := tag_local signedChar req.addr h
  have hrd : s._ready = t._ready := h.1
  have hinner : inBoundsEq
      (if req.HitL1 = true ∧ checkBit signedChar req.addr s.tags STATE_SIZE = true
          ∧ s._ready = false then hitBranch signedChar s req
        else if req.HitL1 = false then missBranch s req else s)
      (if req.HitL1 = true ∧ checkBit signedChar req.addr t.tags STATE_SIZE = true
          ∧ t._ready = false then hitBranch signedChar t req
        else if req.HitL1 = false then missBranch t req else t) := by
    rw [htag, hrd]
    split
    · exact hitBranch_local signedChar req h
    · split
      · exact missBranch_local req h
      · exact h
  obtain ⟨h1, h2, h3, h4, h5, h6⟩ := hinner
  exact ⟨h1, h2, h3, unmarkBit_local _ (by decide) h4, h5, h6⟩

theorem ctorStep_local {s t : State} (i : Nat) (h : inBoundsEq s t) :
    inBoundsEq (ctorStep s i) (ctorStep t i) := by
  obtain ⟨hrd, hn, hq, ht, hc, hr⟩ := h
  exact ⟨hrd, hn, hq, ht, unmarkBit_local _ (by decide) hc, store_local _ _ hr⟩

theorem foldl_ctorStep_local (l : List Nat) {s t : State} (h : inBoundsEq s t) :
    inBoundsEq (l.foldl ctorStep s) (l.foldl ctorStep t) := by
  induction l generalizing s t with
  | nil => exact h
  | cons i l ih =>
    rw [List.foldl_cons, List.foldl_cons]
    exact ih (ctorStep_local i h)

theorem Prefetcher_local {s t : State} (h : inBoundsEq s t) :
    inBoundsEq (Prefetcher s) (Prefetcher t) := by
  obtain ⟨_, hn, hq, _, hc, hr⟩ := h
  unfold Prefetcher
  apply foldl_ctorStep_local
  refine ⟨rfl, hn, hq, ?_, hc, hr⟩
  intro k hk
  show (if k < STATE_SIZE then 0 else s.tags k) = (if k < STATE_SIZE then 0 else t.tags k)
  rw [if_pos hk, if_pos hk]

theorem inBoundsEq_junkState : inBoundsEq startState junkState :=
  ⟨rfl, rfl, rfl, fun _ hk => (if_pos hk).symm, fun _ hk => (if_pos hk).symm,
    fun _ hk => (if_pos hk).symm⟩

/-- C14. No out-of-range access.  For every address or slot number `x`, program counter `pc`
and engine state: the byte index the bit-array helpers compute is below 2048 for `tags` and
below 17 for `rpt_check`, and the shift amount is at most 7; the helpers read and write that
byte only; the row index `pc mod 128` is below 128 and the constructor's loop runs over
exactly the indices below 128; `cpuRequest`, `completeRequest` and the constructor leave
every cell at or beyond the end of `tags`, `rpt_check` and `rpt_table` as it was; and they
read no such cell: run on two memories that agree on the object members and on every cell
inside the three arrays, whatever lies beyond, each of them yields memories that again agree
on the object members and on every cell inside the arrays. -/
theorem C14_no_out_of_range (signedChar : Bool) (st st' : State) (req : Request)
    (x pc k : Nat) (bitArray other : Nat → Nat) (size : Nat) :
    (charIndex x STATE_SIZE < STATE_SIZE ∧ remBits x STATE_SIZE ≤ 7)
      ∧ (charIndex x RPT_CHECK_SIZE < RPT_CHECK_SIZE ∧ remBits x RPT_CHECK_SIZE ≤ 7)
      ∧ pc % NUM_RPT_ENTRIES < NUM_RPT_ENTRIES
      ∧ (x ∈ List.range NUM_RPT_ENTRIES ↔ x < NUM_RPT_ENTRIES)
      ∧ markBit x bitArray size
        = store bitArray (charIndex x size)
            (toChar (bitArray (charIndex x size) ||| toChar (1 <<< remBits x size)))
      ∧ unmarkBit x bitArray size
        = store bitArray (charIndex x size)
            (toChar (bitArray (charIndex x size) &&& (255 - toChar (1 <<< remBits x size))))
      ∧ checkBit signedChar x bitArray size
        = checkBit signedChar x (store other (charIndex x size) (bitArray (charIndex x size)))
            size
      ∧ ((cpuRequest signedChar st req).tags (STATE_SIZE + k) = st.tags (STATE_SIZE + k)
        ∧ (cpuRequest signedChar st req).rpt_check (RPT_CHECK_SIZE + k)
          = st.rpt_check (RPT_CHECK_SIZE + k)
        ∧ (cpuRequest signedChar st req).rpt_table (NUM_RPT_ENTRIES + k)
          = st.rpt_table (NUM_RPT_ENTRIES + k))
      ∧ ((completeRequest signedChar st).tags (STATE_SIZE + k) = st.tags (STATE_SIZE + k)
        ∧ (completeRequest signedChar st).rpt_check = st.rpt_check
        ∧ (completeRequest signedChar st).rpt_table = st.rpt_table)
      ∧ ((Prefetcher st).tags (STATE_SIZE + k) = st.tags (STATE_SIZE + k)
        ∧ (Prefetcher st).rpt_check (RPT_CHECK_SIZE + k) = st.rpt_check (RPT_CHECK_SIZE + k)
        ∧ (Prefetcher st).rpt_table (NUM_RPT_ENTRIES + k)
          = st.rpt_table (NUM_RPT_ENTRIES + k))
      ∧ (inBoundsEq st st' →
          inBoundsEq (cpuRequest signedChar st req) (cpuRequest signedChar st' req)
            ∧ inBoundsEq (completeRequest signedChar st) (completeRequest signedChar st')
            ∧ inBoundsEq (Prefetcher st) (Prefetcher st')) := by
  refine ⟨⟨charIndex_lt x (by decide), Nat.le_of_lt_succ (remBits_lt x _)⟩,
    ⟨charIndex_lt x (by decide), Nat.le_of_lt_succ (remBits_lt x _)⟩,
    Nat.mod_lt _ (by decide), List.mem_range, rfl, rfl, ?_,
    cpuRequest_beyond signedChar st req k,
    ⟨completeRequest_beyond signedChar st k, (completeRequest_rpt signedChar st).2,
      (completeRequest_rpt signedChar st).1⟩,
    Prefetcher_beyond st k,
    fun h => ⟨cpuRequest_local signedChar req h, completeRequest_local signedChar h,
      Prefetcher_local h⟩⟩
  rw [checkBit_eq, checkBit_eq]
  unfold store
  rw [if_pos rfl]

/-- Witness of C14 on the start-up memory and a memory that differs from it past the end of
each array: a demand miss by `pc = 5` at address 1000, `completeRequest` and the constructor
yield memories that agree inside the arrays. -/
theorem C14_no_out_of_range_witness :
    inBoundsEq startState junkState
      ∧ junkState.tags STATE_SIZE ≠ startState.tags STATE_SIZE
      ∧ junkState.rpt_check RPT_CHECK_SIZE ≠ startState.rpt_check RPT_CHECK_SIZE
      ∧ junkState.rpt_table NUM_RPT_ENTRIES ≠ startState.rpt_table NUM_RPT_ENTRIES
      ∧ inBoundsEq (cpuRequest true startState (missEvent 5 1000))
          (cpuRequest true junkState (missEvent 5 1000))
      ∧ inBoundsEq (completeRequest true startState) (completeRequest true junkState)
      ∧ inBoundsEq (Prefetcher startState) (Prefetcher junkState) :=
  ⟨inBoundsEq_junkState, by decide, by decide, by decide,
    (C14_no_out_of_range true startState junkState (missEvent 5 1000) 0 0 0
      startState.tags startState.tags STATE_SIZE).2.2.2.2.2.2.2.2.2.2 inBoundsEq_junkState⟩

/-! ## Confidence flags across slots -/

theorem store_other {α : Type} (a : Nat → α) {i j : Nat} (v : α) (h : j ≠ i) :
    store a i v j = a j := by
  unfold store
  rw [if_neg h]

/-- A demand miss leaves the rows of all other slots as they were. -/
theorem cpuRequest_miss_other_rows (signedChar : Bool) (st : State) (req : Request)
    (h : req.HitL1 = false) {j : Nat} (hj : j ≠ req.pc % NUM_RPT_ENTRIES) :
    (cpuRequest signedChar st req).rpt_table j = st.rpt_table j := by
  rw [cpuRequest_miss signedChar st req h]
  show store (rptProcess st req).rpt_table (req.pc % NUM_RPT_ENTRIES) _ j = _
  rw [store_other _ _ hj]
  unfold rptProcess
  simp only []
  split
  · split
    · rfl
    · exact store_other _ _ hj
  · exact store_other _ _ hj

/-- C15, at the failing input. On the engine constructed at start-up and sent demand misses
by `pc = 5` at 1000 and 1200, a third miss by `pc = 5` at 1400 changes the confidence flag
read for slot 22 from false to true, although `22 ≠ 5 mod 128`: the flag of a slot is the bit
numbered `slot mod 17`, so slots 5 and 22 share one bit.  The row of slot 22 is unchanged. -/
theorem C15_confidence_shared_across_slots (signedChar : Bool) :
    22 < NUM_RPT_ENTRIES ∧ 22 ≠ (missEvent 5 1400).pc % NUM_RPT_ENTRIES
      ∧ bitIndex 22 RPT_CHECK_SIZE = bitIndex 5 RPT_CHECK_SIZE
      ∧ checkBit signedChar 22 (twoMisses signedChar startState 5 1000 200).rpt_check
          RPT_CHECK_SIZE = false
      ∧ checkBit signedChar 22
          (cpuRequest signedChar (twoMisses signedChar startState 5 1000 200)
            (missEvent 5 1400)).rpt_check RPT_CHECK_SIZE = true
      ∧ (cpuRequest signedChar (twoMisses signedChar startState 5 1000 200)
            (missEvent 5 1400)).rpt_table 22
        = (twoMisses signedChar startState 5 1000 200).rpt_table 22 := by
  refine ⟨by decide, by decide, by decide, ?_, ?_,
    cpuRequest_miss_other_rows signedChar _ _ rfl (by decide)⟩
  · cases signedChar <;> decide
  · cases signedChar <;> decide

/-- C16, at the failing input. The state reached from construction by demand misses by
`pc = 5` at 1000, 1200, 1400 has a slot, 22, whose confidence flag reads true while its
`last_stride` is 0: slot 22 shares its flag bit with slot 5, which the third miss marked. -/
theorem C16_confident_slot_with_zero_stride (signedChar : Bool) :
    checkBit signedChar 22 (threeMisses signedChar startState 5 1000 200).rpt_check
        RPT_CHECK_SIZE = true
      ∧ ((threeMisses signedChar startState 5 1000 200).rpt_table 22).last_stride = 0
      ∧ ¬ ((threeMisses signedChar startState 5 1000 200).rpt_table 22).last_stride
          > WORTHWHILE_RPT := by
  cases signedChar <;> decide

/-! ## Paths that leave the RPT alone -/

/-- C17. The RPT is written only on demand misses: for every engine state, every
`cpuRequest` with `HitL1 = true` and every `completeRequest` leave the whole RPT array
(all 128 rows) and the whole confidence array unchanged, hence every confidence flag
read. -/
theorem C17_rpt_written_only_on_miss (signedChar : Bool) (st : State) (req : Request)
    (h : req.HitL1 = true) :
    ((cpuRequest signedChar st req).rpt_table = st.rpt_table
        ∧ (cpuRequest signedChar st req).rpt_check = st.rpt_check
        ∧ ∀ j : Nat, checkBit signedChar j (cpuRequest signedChar st req).rpt_check
            RPT_CHECK_SIZE = checkBit signedChar j st.rpt_check RPT_CHECK_SIZE)
      ∧ ((completeRequest signedChar st).rpt_table = st.rpt_table
        ∧ (completeRequest signedChar st).rpt_check = st.rpt_check
        ∧ ∀ j : Nat, checkBit signedChar j (completeRequest signedChar st).rpt_check
            RPT_CHECK_SIZE = checkBit signedChar j st.rpt_check RPT_CHECK_SIZE) := by
  obtain ⟨h1, h2⟩ := cpuRequest_hit_rpt signedChar st req h
  obtain ⟨h3, h4⟩ := completeRequest_rpt signedChar st
  refine ⟨⟨h1, h2, ?_⟩, ⟨h3, h4, ?_⟩⟩
  · intro j; rw [h2]
  · intro j; rw [h4]

/-- Witness of C17 at an L1 hit by `pc = 5` at address 1400 and at `completeRequest`, both
on the state reached by three misses, in which slot 5 is marked confident. -/
theorem C17_rpt_written_only_on_miss_witness :
    (hitEvent 5 1400).HitL1 = true
      ∧ (cpuRequest true (threeMisses true startState 5 1000 200) (hitEvent 5 1400)).rpt_table
        = (threeMisses true startState 5 1000 200).rpt_table
      ∧ (completeRequest true (threeMisses true startState 5 1000 200)).rpt_check
        = (threeMisses true startState 5 1000 200).rpt_check :=
  ⟨rfl,
    (C17_rpt_written_only_on_miss true (threeMisses true startState 5 1000 200)
      (hitEvent 5 1400) rfl).1.1,
    (C17_rpt_written_only_on_miss true (threeMisses true startState 5 1000 200)
      (hitEvent 5 1400) rfl).2.2.1⟩

/-- C18. Case C changes nothing but the accessed tag: for every engine state and every
event with `HitL1 = true` whose address does not test as tagged, or that arrives while a
request is staged, `cpuRequest` returns the prior state with the accessed address unmarked in
`tags`: `hasRequest`, the quota, the staged request, the RPT rows and the confidence array
are unchanged. -/
theorem C18_case_C_only_untags (signedChar : Bool) (st : State) (req : Request)
    (hhit : req.HitL1 = true)
    (hc : checkBit signedChar req.addr st.tags STATE_SIZE = false ∨ hasRequest st = true) :
    cpuRequest signedChar st req = { st with tags := unmarkBit req.addr st.tags STATE_SIZE }
      ∧ hasRequest (cpuRequest signedChar st req) = hasRequest st
      ∧ (cpuRequest signedChar st req)._req_left = st._req_left
      ∧ getRequest (cpuRequest signedChar st req) = getRequest st
      ∧ (cpuRequest signedChar st req).rpt_table = st.rpt_table
      ∧ (cpuRequest signedChar st req).rpt_check = st.rpt_check
      ∧ (cpuRequest signedChar st req).tags = unmarkBit req.addr st.tags STATE_SIZE := by
  have hne : ¬ req.HitL1 = false := by rw [hhit]; decide
  have hno : ¬ (req.HitL1 = true ∧ checkBit signedChar req.addr st.tags STATE_SIZE = true
      ∧ st._ready = false) := by
    rintro ⟨_, ht, hr⟩
    rcases hc with hc | hc
    · rw [hc] at ht; exact absurd ht (by decide)
    · have hr2 : st._ready = true := hc
      rw [hr2] at hr; exact absurd hr (by decide)
  have heq : cpuRequest signedChar st req
      = { st with tags := unmarkBit req.addr st.tags STATE_SIZE } := by
    unfold cpuRequest
    rw [if_neg hno, if_neg hne]
  rw [heq]
  exact ⟨rfl, rfl, rfl, rfl, rfl, rfl, rfl⟩

/-- Witness of C18 at an L1 hit by `pc = 5` on the untagged address 1000 of the start-up
state. -/
theorem C18_case_C_only_untags_witness :
    ((hitEvent 5 1000).HitL1 = true
        ∧ (checkBit true (hitEvent 5 1000).addr startState.tags STATE_SIZE = false
          ∨ hasRequest startState = true))
      ∧ cpuRequest true startState (hitEvent 5 1000)
        = { startState with tags := unmarkBit (hitEvent 5 1000).addr startState.tags STATE_SIZE } :=
  ⟨⟨rfl, Or.inl (by decide)⟩,
    (C18_case_C_only_untags true startState (hitEvent 5 1000) rfl (Or.inl (by decide))).1⟩

end HybridPrefetcher
